import Mathlib

/-!
Shallow embedding of the error-normalization and request-tracing subsystem of
a NestJS service (the `AllExceptionsFilter` in
`src/common/filters/all-exceptions.filter.ts`) together with the
`StudentsService.remove` path, and proofs about the spec claims C1-C10.

JavaScript values are modelled just deeply enough for the code paths the
filter inspects: an exception is either an `HttpException` (status plus raw
response payload), an `Error` instance (message, optional stack, optional
Prisma-style `code` and `meta.target`), or a non-`Error` value (which may
still carry `code`/`meta.target` when it is a plain object).
-/

/-- A single element of a validation `message` array: either a plain string or
a structured per-field violation record carrying an optional `property` and an
optional `constraints` map (modelled as an association list in insertion
order, as `Object.values` iterates it). `constraints := some []` models the
record `\x7b\x7d` (present but empty), `none` models an absent field. -/
inductive MsgItem where
  | str (s : String)
  | record (property : Option String) (constraints : Option (List (String × String)))
  deriving DecidableEq, Repr

/-- The `message` field of an `HttpException` response object: a plain string
or an array of items. -/
inductive RawMessage where
  | str (s : String)
  | arr (items : List MsgItem)
  deriving DecidableEq, Repr

/-- The value returned by `HttpException.getResponse()`: a string, a non-array
object with optional `message` and `error` fields, an array, or some other
primitive. -/
inductive RawResponse where
  | str (s : String)
  | obj (message : Option RawMessage) (error : Option String)
  | arr
  | other
  deriving DecidableEq, Repr

/-- An `HttpException`: `getStatus()`, `getResponse()`, and the inherited
`message` string property. -/
structure HttpExc where
  status : Nat
  response : RawResponse
  excMessage : String
  deriving DecidableEq, Repr

/-- A caught value (`exception : unknown`): an `HttpException`, some other
`Error` instance (with `message`, optional `stack`, and optional Prisma-style
`code` and `meta.target` properties), or a non-`Error` value (a thrown string
or plain object, which may still expose `code`/`meta.target`). -/
inductive Exc where
  | http (e : HttpExc)
  | jsError (message : String) (stack : Option String)
      (code : Option String) (target : Option (List String))
  | nonError (code : Option String) (target : Option (List String))
  deriving DecidableEq, Repr

/-- The `message` field of the envelope, `string | string[]` in the DTO; the
array branch keeps the raw items the filter would pass through. -/
inductive EnvMessage where
  | str (s : String)
  | arr (items : List MsgItem)
  deriving DecidableEq, Repr

/-- `ValidationErrorItem` from `error-response.dto.ts`. -/
structure ValidationErrorItem where
  field : String
  messages : List String
  deriving DecidableEq, Repr

/-- `ErrorResponseDetails` from `error-response.dto.ts`; `errors` is always
set by the filter when details are produced. -/
structure ErrorResponseDetails where
  errors : List ValidationErrorItem
  deriving DecidableEq, Repr

/-- `ErrorResponseDto` from `error-response.dto.ts`. `traceId` and `details`
are optional; `none` models the field being absent from the envelope. -/
structure ErrorResponseDto where
  statusCode : Nat
  message : EnvMessage
  error : String
  traceId : Option String
  details : Option ErrorResponseDetails
  deriving DecidableEq, Repr

/-- `getStatusText`: the `STATUS_TEXT` lookup with fallback. -/
def getStatusText (statusCode : Nat) : String :=
  if statusCode = 400 then "Bad Request"
  else if statusCode = 401 then "Unauthorized"
  else if statusCode = 403 then "Forbidden"
  else if statusCode = 404 then "Not Found"
  else if statusCode = 409 then "Conflict"
  else if statusCode = 500 then "Internal Server Error"
  else "Error"

/-- The `typeof m === string` element test used by `message.every(...)`. -/
def isStrItem : MsgItem → Bool
  | .str _ => true
  | .record _ _ => false

/-- The JavaScript `String(e)` coercion on a message item: identity on a
string, the standard object stringification on a record. -/
def asString : MsgItem → String
  | .str s => s
  | .record _ _ => "[object Object]"

/-- One entry of the record-mapping branch of `formatValidationDetails`:
`field := e.property ?? body` and `messages := e.constraints ?
Object.values(e.constraints) : [String(e)]`. An empty `constraints` object is
truthy in JavaScript, so `some []` yields an empty `messages` list. A plain
string in a mixed array has neither property, so it maps to
`field := body, messages := [String(e)]`. -/
def mkValidationItem : MsgItem → ValidationErrorItem
  | .str s => ⟨"body", [s]⟩
  | .record property constraints =>
    ⟨property.getD "body",
      match constraints with
      | some cs => cs.map Prod.snd
      | none => [asString (.record property constraints)]⟩

/-- The body shared by both branches of `formatValidationDetails` once a
non-empty array has been found: all-strings arrays collapse to the single
sentinel entry `field := body`, anything else is mapped record-wise. -/
def formatArray (items : List MsgItem) : ErrorResponseDetails :=
  if items.all isStrItem then ⟨[⟨"body", items.map asString⟩]⟩
  else ⟨items.map mkValidationItem⟩

/-- `formatValidationDetails(message, raw)`: returns details exactly when
`message` (or, failing that, `raw.message`) is a non-empty array. The second
argument models the `raw.message` field read by the second branch. -/
def formatValidationDetails (message : Option RawMessage)
    (rawMessage : Option RawMessage) : Option ErrorResponseDetails :=
  match message with
  | some (RawMessage.arr items) =>
    if items.length > 0 then some (formatArray items)
    else
      match rawMessage with
      | some (RawMessage.arr items2) =>
        if items2.length > 0 then some (formatArray items2) else none
      | _ => none
  | _ =>
    match rawMessage with
    | some (RawMessage.arr items2) =>
      if items2.length > 0 then some (formatArray items2) else none
    | _ => none

/-- Coercion of a raw `message` field into the envelope message (the
`msg ?? ...` pass-through when no validation details were built). -/
def envOfRawMessage : RawMessage → EnvMessage
  | .str s => .str s
  | .arr items => .arr items

/-- `normalizeHttpException`: keeps the exception status, substitutes the
fixed message `Validation failed` when validation details were built, and
falls back through `msg ?? exception.message` otherwise. -/
def normalizeHttpException (e : HttpExc) (traceId : Option String) :
    ErrorResponseDto :=
  let statusText := getStatusText e.status
  match e.response with
  | RawResponse.obj msg err =>
    let details := formatValidationDetails msg msg
    let message : EnvMessage :=
      match details with
      | some _ => .str "Validation failed"
      | none =>
        match msg with
        | some m => envOfRawMessage m
        | none => .str e.excMessage
    { statusCode := e.status, message := message,
      error := err.getD statusText, traceId := traceId, details := details }
  | RawResponse.str s =>
    { statusCode := e.status, message := .str s, error := statusText,
      traceId := traceId, details := none }
  | _ =>
    { statusCode := e.status, message := .str e.excMessage,
      error := statusText, traceId := traceId, details := none }

/-- `tryMapPrismaError`: P2002 to 409 Conflict (naming the target fields when
`meta?.target?.join` is truthy, i.e. non-empty), P2025 to 404, anything else
passes through (`none`). -/
def tryMapPrismaError (code : Option String) (target : Option (List String))
    (traceId : Option String) : Option ErrorResponseDto :=
  if code = some "P2002" then
    let joined := target.map (String.intercalate ", ")
    let message :=
      match joined with
      | some j =>
        if j = "" then "Resource already exists"
        else "Duplicate value for field(s): " ++ j
      | none => "Resource already exists"
    some { statusCode := 409, message := .str message,
           error := getStatusText 409, traceId := traceId, details := none }
  else if code = some "P2025" then
    some { statusCode := 404, message := .str "Record not found",
           error := getStatusText 404, traceId := traceId, details := none }
  else none

/-- The `.code` property of a caught value (`undefined` on an
`HttpException`, which carries no Prisma code). -/
def excCode : Exc → Option String
  | .http _ => none
  | .jsError _ _ c _ => c
  | .nonError c _ => c

/-- The `.meta?.target` property of a caught value. -/
def excTarget : Exc → Option (List String)
  | .http _ => none
  | .jsError _ _ _ t => t
  | .nonError _ t => t

/-- The `exception instanceof HttpException` test. -/
def isHttpException : Exc → Bool
  | .http _ => true
  | _ => false

/-- `normalizeUnknownError`: always 500; in production the message is the
fixed string, otherwise an `Error` instance surfaces its own message (an
`HttpException` is an `Error` too, though this path never sees one). -/
def normalizeUnknownError (e : Exc) (isProduction : Bool)
    (traceId : Option String) : ErrorResponseDto :=
  let message :=
    match e with
    | .http h => h.excMessage
    | .jsError m _ _ _ => m
    | .nonError _ _ => "Internal server error"
  { statusCode := 500,
    message := .str (if isProduction then "Internal server error" else message),
    error := getStatusText 500, traceId := traceId, details := none }

/-- `buildErrorResponse`: HttpException first, then the Prisma mapping, then
the unknown-error fallback. -/
def buildErrorResponse (isProduction : Bool) (e : Exc)
    (traceId : Option String) : ErrorResponseDto :=
  match e with
  | .http h => normalizeHttpException h traceId
  | _ =>
    match tryMapPrismaError (excCode e) (excTarget e) traceId with
    | some r => r
    | none => normalizeUnknownError e isProduction traceId

/-- One entry written to the trace logger: `warn(message)` or
`error(message, stack?)`. -/
inductive LogEntry where
  | warn (message : String)
  | error (message : String) (stack : Option String)
  deriving DecidableEq, Repr

/-- JSON string escaping for the characters `JSON.stringify` always escapes
in the messages the filter renders. -/
def jsonEscape (s : String) : String :=
  String.join (s.data.map fun c =>
    if c = '\\' then "\\\\"
    else if c = '\"' then "\\\""
    else if c = '\n' then "\\n"
    else if c = '\t' then "\\t"
    else if c = '\r' then "\\r"
    else String.singleton c)

/-- Models the `JSON.stringify` builtin on the values the filter ever renders
as `body.message`: a string, or an array of strings / violation records
(optional keys are omitted, as `JSON.stringify` skips `undefined`). -/
def jsonStringify : EnvMessage → String
  | .str s => "\"" ++ jsonEscape s ++ "\""
  | .arr items =>
    let renderPair : String × String → String := fun p =>
      "\"" ++ jsonEscape p.1 ++ "\":\"" ++ jsonEscape p.2 ++ "\""
    let renderItem : MsgItem → String := fun it =>
      match it with
      | .str s => "\"" ++ jsonEscape s ++ "\""
      | .record property constraints =>
        let fields :=
          (match property with
            | some p => ["\"property\":\"" ++ jsonEscape p ++ "\""]
            | none => []) ++
          (match constraints with
            | some cs =>
              ["\"constraints\":\x7b" ++
                String.intercalate "," (cs.map renderPair) ++ "\x7d"]
            | none => [])
        "\x7b" ++ String.intercalate "," fields ++ "\x7d"
    "[" ++ String.intercalate "," (items.map renderItem) ++ "]"

/-- The message the `error`-level log line carries:
`exception instanceof Error ? exception.message : Unknown error`. -/
def underlyingMessage : Exc → String
  | .http h => h.excMessage
  | .jsError m _ _ _ => m
  | .nonError _ _ => "Unknown error"

/-- The stack the `error`-level log line carries (only an `Error` instance
has one to offer; the `HttpException` branch never reaches this log line). -/
def underlyingStack : Exc → Option String
  | .jsError _ st _ _ => st
  | _ => none

/-- The observable effects of one `AllExceptionsFilter.catch` invocation: the
log entries written, the HTTP status passed to `response.status`, and the
JSON body. -/
structure CatchOutcome where
  logs : List LogEntry
  responseStatus : Nat
  responseBody : ErrorResponseDto
  deriving DecidableEq, Repr

/-- `AllExceptionsFilter.catch`: builds the envelope, logs a warning for any
`HttpException`, logs an error (with underlying message and stack) only for
non-`HttpException` failures rendered with status 500 or above, and writes
the response once with the envelope status. -/
def filterCatch (isProduction : Bool) (traceId : Option String) (e : Exc) :
    CatchOutcome :=
  let body := buildErrorResponse isProduction e traceId
  let statusCode := body.statusCode
  let logs : List LogEntry :=
    match e with
    | .http _ =>
      let rendered := jsonStringify body.message
      [LogEntry.warn ("HttpException " ++ toString statusCode ++ ": " ++ rendered)]
    | _ =>
      if 500 ≤ statusCode then
        [LogEntry.error (underlyingMessage e) (underlyingStack e)]
      else []
  { logs := logs, responseStatus := statusCode, responseBody := body }

/-- The `DeleteResult` returned by the repository `delete(id)`:
`affected?: number | null` (`none` models both `undefined` and `null`, neither
of which is strictly equal to 0). -/
structure DeleteResult where
  affected : Option Int
  deriving DecidableEq, Repr

/-- What `StudentsService.remove` does: completes, or raises an exception. -/
inductive RemoveOutcome where
  | ok
  | raised (e : HttpExc)
  deriving DecidableEq, Repr

/-- The NestJS `NotFoundException(msg)`: status 404, response object with the
given message and the error label `Not Found`. -/
def NotFoundExceptionOf (msg : String) : HttpExc :=
  { status := 404, response := RawResponse.obj (some (RawMessage.str msg)) (some "Not Found"),
    excMessage := msg }

/-- Modelled from the spec: the concrete TypeORM-backed student repository is
not under src/ (only the `IStudentRepository` interface is), and the spec
states that `delete` of a non-existent id returns an affected-count of zero,
not a failure. The store is the list of stored student ids; `delete` removes
every row with the given id and reports how many were affected. -/
def repoDelete (store : List String) (id : String) :
    DeleteResult × List String :=
  (⟨some (store.countP (fun s => s == id) : Int)⟩,
   store.filter (fun s => !(s == id)))

/-- `StudentsService.remove(id)`: calls the repository delete and throws
`NotFoundException` exactly when `result.affected === 0`. -/
def studentsServiceRemove (store : List String) (id : String) :
    RemoveOutcome × List String :=
  let r := repoDelete store id
  if r.1.affected = some 0 then
    (RemoveOutcome.raised (NotFoundExceptionOf s!"Student {id} not found"), r.2)
  else
    (RemoveOutcome.ok, r.2)

/-- C7: for every caught failure, the envelope's `traceId` equals exactly the
value the trace context yielded for the current request scope: present with
that value when one was yielded, absent (`none`, i.e. omitted from the JSON)
when no request scope was active. The filter threads the identifier through
unchanged in every classification branch, never creating or altering it. -/
theorem tryMapPrismaError_traceId {c : Option String} {t : Option (List String)}
    {tid : Option String} {r : ErrorResponseDto}
    (h : tryMapPrismaError c t tid = some r) : r.traceId = tid := by
  unfold tryMapPrismaError at h
  split at h
  · rw [Option.some_inj] at h; rw [← h]
  · split at h
    · rw [Option.some_inj] at h; rw [← h]
    · simp_all

theorem C7_trace_id_passthrough (p : Bool) (tid : Option String) (e : Exc) :
    (filterCatch p tid e).responseBody.traceId = tid := by
  cases e with
  | http h =>
    obtain ⟨st, resp, em⟩ := h
    cases resp <;> simp [filterCatch, buildErrorResponse, normalizeHttpException]
  | jsError m st c t =>
    rcases hmap : tryMapPrismaError (excCode (Exc.jsError m st c t))
        (excTarget (Exc.jsError m st c t)) tid with _ | r
    · simp [filterCatch, buildErrorResponse, hmap, normalizeUnknownError]
    · simp only [filterCatch, buildErrorResponse, hmap]
      exact tryMapPrismaError_traceId hmap
  | nonError c t =>
    rcases hmap : tryMapPrismaError (excCode (Exc.nonError c t))
        (excTarget (Exc.nonError c t)) tid with _ | r
    · simp [filterCatch, buildErrorResponse, hmap, normalizeUnknownError]
    · simp only [filterCatch, buildErrorResponse, hmap]
      exact tryMapPrismaError_traceId hmap

/-- C1 counterexample: an `HttpException` with status 418 whose payload is a
validation array holding one record with an empty `property` and an empty
`constraints` object. The claim demands `statusCode = 400` and non-empty
`field` and `messages` for every entry; the filter keeps the exception status
418 and produces the entry with empty `field` and empty `messages`. -/
theorem C1_counterexample :
    (normalizeHttpException
      ⟨418, RawResponse.obj (some (RawMessage.arr
        [MsgItem.record (some "") (some [])])) none, "teapot"⟩ none).statusCode
        = 418 ∧
    (normalizeHttpException
      ⟨418, RawResponse.obj (some (RawMessage.arr
        [MsgItem.record (some "") (some [])])) none, "teapot"⟩ none).details
        = some ⟨[⟨"", []⟩]⟩ :=
  ⟨rfl, rfl⟩

/-- C1 amended: for every caught `HttpException` whose payload carries a
non-empty validation sequence, the envelope keeps the exception's own
`statusCode` (the validation pipe raises these with 400, but the filter does
not force it), `message` is the single string `Validation failed`, and
`details.errors` is the non-empty sequence computed by `formatArray` (whose
entries' `field` or `messages` may be empty when a record carries an empty
`property` or an empty `constraints` object). -/
theorem C1_validation_envelope (status : Nat) (items : List MsgItem)
    (err : Option String) (em : String) (tid : Option String)
    (h : items ≠ []) :
    (normalizeHttpException
      ⟨status, RawResponse.obj (some (RawMessage.arr items)) err, em⟩
      tid).statusCode = status ∧
    (normalizeHttpException
      ⟨status, RawResponse.obj (some (RawMessage.arr items)) err, em⟩
      tid).message = EnvMessage.str "Validation failed" ∧
    (normalizeHttpException
      ⟨status, RawResponse.obj (some (RawMessage.arr items)) err, em⟩
      tid).details = some (formatArray items) ∧
    (formatArray items).errors ≠ [] := by
  have hlen : items.length > 0 := List.length_pos.mpr h
  have hfmt : formatValidationDetails (some (RawMessage.arr items))
      (some (RawMessage.arr items)) = some (formatArray items) := by
    simp [formatValidationDetails, hlen]
  refine ⟨rfl, ?_, ?_, ?_⟩
  · simp [normalizeHttpException, hfmt]
  · simp [normalizeHttpException, hfmt]
  · simp only [formatArray]
    split
    · simp
    · simpa using h

/-- C1 witness: the amended claim evaluated on the standard validation-pipe
shape (status 400, one plain-string violation). -/
theorem C1_validation_envelope_witness :
    ([MsgItem.str "age must be >= 6"] : List MsgItem) ≠ [] ∧
    ((normalizeHttpException
      ⟨400, RawResponse.obj (some (RawMessage.arr [MsgItem.str "age must be >= 6"]))
        (some "Bad Request"), "Bad Request Exception"⟩
      (some "t1")).statusCode = 400 ∧
    (normalizeHttpException
      ⟨400, RawResponse.obj (some (RawMessage.arr [MsgItem.str "age must be >= 6"]))
        (some "Bad Request"), "Bad Request Exception"⟩
      (some "t1")).message = EnvMessage.str "Validation failed" ∧
    (normalizeHttpException
      ⟨400, RawResponse.obj (some (RawMessage.arr [MsgItem.str "age must be >= 6"]))
        (some "Bad Request"), "Bad Request Exception"⟩
      (some "t1")).details = some (formatArray [MsgItem.str "age must be >= 6"]) ∧
    (formatArray [MsgItem.str "age must be >= 6"]).errors ≠ []) :=
  ⟨by decide,
   C1_validation_envelope 400 [MsgItem.str "age must be >= 6"]
     (some "Bad Request") "Bad Request Exception" (some "t1") (by decide)⟩

/-- C3 counterexample: an `HttpException` with explicit status 418 whose
payload passes the validation-shape test. The claim says such a failure is
rerouted to response status 400; the filter responds with 418. -/
theorem C3_counterexample :
    formatValidationDetails
      (some (RawMessage.arr [MsgItem.str "name must be a string"]))
      (some (RawMessage.arr [MsgItem.str "name must be a string"])) ≠ none ∧
    (filterCatch false none (Exc.http
      ⟨418, RawResponse.obj (some (RawMessage.arr
        [MsgItem.str "name must be a string"])) none, "x"⟩)).responseStatus
      = 418 :=
  ⟨by decide, rfl⟩

/-- C3 amended: for every failure carrying an explicit intended HTTP status S
(an `HttpException`), the HTTP response status and the envelope's
`statusCode` equal S exactly, in all cases — including when the payload
passes the validation-shape test, which only substitutes the message and
details, never the status. -/
theorem C3_status_passthrough (h : HttpExc) (p : Bool) (tid : Option String) :
    (filterCatch p tid (Exc.http h)).responseStatus = h.status ∧
    (filterCatch p tid (Exc.http h)).responseBody.statusCode = h.status := by
  obtain ⟨st, resp, em⟩ := h
  cases resp <;> simp [filterCatch, buildErrorResponse, normalizeHttpException]

/-- C10: a caught non-`Error` value outside the Prisma mapping is rendered
with the fixed message `Internal server error` and status 500 in every mode,
production or not — the thrown value's content never reaches the envelope. -/
theorem C10_non_error_masked (p : Bool) (tid : Option String)
    (c : Option String) (t : Option (List String))
    (h1 : c ≠ some "P2002") (h2 : c ≠ some "P2025") :
    (buildErrorResponse p (Exc.nonError c t) tid).message
      = EnvMessage.str "Internal server error" ∧
    (buildErrorResponse p (Exc.nonError c t) tid).statusCode = 500 := by
  cases p <;>
    simp [buildErrorResponse, excCode, excTarget, tryMapPrismaError, h1, h2,
      normalizeUnknownError]

/-- C10 witness: a thrown plain object with an unrecognized vendor code, in
non-production mode. -/
theorem C10_non_error_masked_witness :
    (some "P9999" ≠ some "P2002") ∧ (some "P9999" ≠ some "P2025") ∧
    ((buildErrorResponse false (Exc.nonError (some "P9999") none) none).message
      = EnvMessage.str "Internal server error" ∧
    (buildErrorResponse false (Exc.nonError (some "P9999") none) none).statusCode
      = 500) :=
  ⟨by decide, by decide,
   C10_non_error_masked false none (some "P9999") none (by decide) (by decide)⟩

/-- C5: in production mode, every failure that reaches the unknown-error
fallback (not an `HttpException`, not mapped by the Prisma table) is rendered
with the fixed message `Internal server error`, status 500 and error label
`Internal Server Error`; the underlying message and stack go only to the
error-level log entry. -/
theorem C5_production_unknown_masked (e : Exc) (tid : Option String)
    (h1 : isHttpException e = false)
    (h2 : tryMapPrismaError (excCode e) (excTarget e) tid = none) :
    (filterCatch true tid e).responseBody.message
      = EnvMessage.str "Internal server error" ∧
    (filterCatch true tid e).responseBody.statusCode = 500 ∧
    (filterCatch true tid e).responseBody.error = "Internal Server Error" ∧
    (filterCatch true tid e).logs
      = [LogEntry.error (underlyingMessage e) (underlyingStack e)] := by
  cases e with
  | http h => simp [isHttpException] at h1
  | jsError m st c t =>
    refine ⟨?_, ?_, ?_, ?_⟩ <;>
      simp [filterCatch, buildErrorResponse, h2, normalizeUnknownError,
        getStatusText]
  | nonError c t =>
    refine ⟨?_, ?_, ?_, ?_⟩ <;>
      simp [filterCatch, buildErrorResponse, h2, normalizeUnknownError,
        getStatusText]

/-- C5 witness: a plain `Error` with a stack, in production, no request
scope. -/
theorem C5_production_unknown_masked_witness :
    isHttpException (Exc.jsError "boom" (some "stk") none none) = false ∧
    tryMapPrismaError (excCode (Exc.jsError "boom" (some "stk") none none))
      (excTarget (Exc.jsError "boom" (some "stk") none none)) none = none ∧
    ((filterCatch true none (Exc.jsError "boom" (some "stk") none none)).responseBody.message
      = EnvMessage.str "Internal server error" ∧
    (filterCatch true none (Exc.jsError "boom" (some "stk") none none)).responseBody.statusCode = 500 ∧
    (filterCatch true none (Exc.jsError "boom" (some "stk") none none)).responseBody.error
      = "Internal Server Error" ∧
    (filterCatch true none (Exc.jsError "boom" (some "stk") none none)).logs
      = [LogEntry.error (underlyingMessage (Exc.jsError "boom" (some "stk") none none))
          (underlyingStack (Exc.jsError "boom" (some "stk") none none))]) :=
  ⟨rfl, rfl,
   C5_production_unknown_masked (Exc.jsError "boom" (some "stk") none none)
     none rfl rfl⟩

/-- C4: for every caught failure that is not an `HttpException`: vendor code
P2002 yields a 409 Conflict envelope whose message names the offending
field(s) whenever `meta.target` is present and joins to a non-empty string;
P2025 yields 404 with the generic message `Record not found`; any other or
absent vendor code falls through to the 500 unknown-error rendering. -/
theorem C4_prisma_mapping (e : Exc) (p : Bool) (tid : Option String)
    (hh : isHttpException e = false) :
    (excCode e = some "P2002" →
      (buildErrorResponse p e tid).statusCode = 409 ∧
      (buildErrorResponse p e tid).error = "Conflict" ∧
      (∀ fs, excTarget e = some fs → String.intercalate ", " fs ≠ "" →
        (buildErrorResponse p e tid).message =
          EnvMessage.str ("Duplicate value for field(s): " ++
            String.intercalate ", " fs))) ∧
    (excCode e = some "P2025" →
      (buildErrorResponse p e tid).statusCode = 404 ∧
      (buildErrorResponse p e tid).message = EnvMessage.str "Record not found") ∧
    (excCode e ≠ some "P2002" → excCode e ≠ some "P2025" →
      (buildErrorResponse p e tid).statusCode = 500) := by
  cases e with
  | http h => simp [isHttpException] at hh
  | jsError m st c t =>
    refine ⟨?_, ?_, ?_⟩
    · intro hc
      subst hc
      refine ⟨?_, ?_, ?_⟩
      · simp [buildErrorResponse, excCode, excTarget, tryMapPrismaError]
      · simp [buildErrorResponse, excCode, excTarget, tryMapPrismaError,
          getStatusText]
      · intro fs hfs hne
        simp only [excTarget] at hfs
        subst hfs
        simp [buildErrorResponse, excCode, excTarget, tryMapPrismaError, hne]
    · intro hc
      subst hc
      constructor <;>
        simp [buildErrorResponse, excCode, excTarget, tryMapPrismaError]
    · intro h1 h2
      simp only [excCode] at h1 h2
      simp [buildErrorResponse, excCode, excTarget, tryMapPrismaError, h1, h2,
        normalizeUnknownError]
  | nonError c t =>
    refine ⟨?_, ?_, ?_⟩
    · intro hc
      subst hc
      refine ⟨?_, ?_, ?_⟩
      · simp [buildErrorResponse, excCode, excTarget, tryMapPrismaError]
      · simp [buildErrorResponse, excCode, excTarget, tryMapPrismaError,
          getStatusText]
      · intro fs hfs hne
        simp only [excTarget] at hfs
        subst hfs
        simp [buildErrorResponse, excCode, excTarget, tryMapPrismaError, hne]
    · intro hc
      subst hc
      constructor <;>
        simp [buildErrorResponse, excCode, excTarget, tryMapPrismaError]
    · intro h1 h2
      simp only [excCode] at h1 h2
      simp [buildErrorResponse, excCode, excTarget, tryMapPrismaError, h1, h2,
        normalizeUnknownError]

/-- C4 witness: a Prisma unique-violation error whose `meta.target` names the
`email` field. -/
theorem C4_prisma_mapping_witness :
    isHttpException (Exc.jsError "dup" none (some "P2002") (some ["email"])) = false ∧
    excCode (Exc.jsError "dup" none (some "P2002") (some ["email"])) = some "P2002" ∧
    excTarget (Exc.jsError "dup" none (some "P2002") (some ["email"])) = some ["email"] ∧
    String.intercalate ", " ["email"] ≠ "" ∧
    (buildErrorResponse false (Exc.jsError "dup" none (some "P2002") (some ["email"])) none).statusCode = 409 ∧
    (buildErrorResponse false (Exc.jsError "dup" none (some "P2002") (some ["email"])) none).error = "Conflict" ∧
    (buildErrorResponse false (Exc.jsError "dup" none (some "P2002") (some ["email"])) none).message
      = EnvMessage.str ("Duplicate value for field(s): " ++ String.intercalate ", " ["email"]) := by
  have h := C4_prisma_mapping
    (Exc.jsError "dup" none (some "P2002") (some ["email"])) false none rfl
  have h1 := h.1 rfl
  exact ⟨rfl, rfl, rfl, by decide, h1.1, h1.2.1, h1.2.2 ["email"] rfl (by decide)⟩

/-- C6: classification is total and tried in priority order with first match
winning — an `HttpException` is always rendered by the HTTP normalizer (even
if it also carried a vendor code, which an `HttpException` never exposes), a
non-`HttpException` matched by the Prisma table is rendered by that mapping,
and everything else falls to the unknown-error default with status 500;
`buildErrorResponse` is a total function, so exactly one envelope is produced
for every caught value. -/
theorem C6_classification_total (p : Bool) (tid : Option String) (e : Exc) :
    (∀ h, e = Exc.http h → buildErrorResponse p e tid = normalizeHttpException h tid) ∧
    (isHttpException e = false →
      ∀ r, tryMapPrismaError (excCode e) (excTarget e) tid = some r →
        buildErrorResponse p e tid = r) ∧
    (isHttpException e = false →
      tryMapPrismaError (excCode e) (excTarget e) tid = none →
        buildErrorResponse p e tid = normalizeUnknownError e p tid ∧
        (buildErrorResponse p e tid).statusCode = 500) := by
  cases e with
  | http h =>
    refine ⟨?_, ?_, ?_⟩
    · intro h0 heq
      cases heq
      rfl
    · intro hfalse
      simp [isHttpException] at hfalse
    · intro hfalse
      simp [isHttpException] at hfalse
  | jsError m st c t =>
    refine ⟨?_, ?_, ?_⟩
    · intro h0 heq
      cases heq
    · intro _ r hr
      simp [buildErrorResponse, hr]
    · intro _ hr
      refine ⟨by simp [buildErrorResponse, hr], ?_⟩
      simp [buildErrorResponse, hr, normalizeUnknownError]
  | nonError c t =>
    refine ⟨?_, ?_, ?_⟩
    · intro h0 heq
      cases heq
    · intro _ r hr
      simp [buildErrorResponse, hr]
    · intro _ hr
      refine ⟨by simp [buildErrorResponse, hr], ?_⟩
      simp [buildErrorResponse, hr, normalizeUnknownError]

/-- C6 witness: a thrown non-`Error` value with no vendor code takes the
default branch and is rendered with status 500. -/
theorem C6_classification_total_witness :
    isHttpException (Exc.nonError none none) = false ∧
    tryMapPrismaError (excCode (Exc.nonError none none))
      (excTarget (Exc.nonError none none)) none = none ∧
    (buildErrorResponse true (Exc.nonError none none) none
      = normalizeUnknownError (Exc.nonError none none) true none ∧
    (buildErrorResponse true (Exc.nonError none none) none).statusCode = 500) :=
  ⟨rfl, rfl,
   (C6_classification_total true none (Exc.nonError none none)).2.2 rfl rfl⟩

/-- C2 counterexample: a Prisma unique-violation error is rendered with
status 409 but produces no log entry at all — the claim demands exactly one
warning-level entry for every failure rendered below 500. -/
theorem C2_counterexample :
    (filterCatch false none
      (Exc.jsError "dup" none (some "P2002") (some ["email"]))).responseStatus
      = 409 ∧
    (filterCatch false none
      (Exc.jsError "dup" none (some "P2002") (some ["email"]))).logs = [] :=
  ⟨rfl, rfl⟩

/-- C2 amended: the response is written once with the envelope's status, and
the log policy is: an `HttpException` produces exactly one warning-level
entry carrying the rendered status and JSON-rendered message (regardless of
its status, even 500 and above); a non-`HttpException` produces exactly one
error-level entry with the underlying failure's own message and stack when
the rendered status is 500 or above, and no log entry at all when the
rendered status is below 500 (the Prisma-mapped 409/404 renderings). -/
theorem C2_logging_policy (p : Bool) (tid : Option String) (e : Exc) :
    (filterCatch p tid e).responseStatus
      = (filterCatch p tid e).responseBody.statusCode ∧
    (∀ h, e = Exc.http h →
      (filterCatch p tid e).logs =
        [LogEntry.warn ("HttpException "
          ++ toString (filterCatch p tid e).responseStatus ++ ": "
          ++ jsonStringify (filterCatch p tid e).responseBody.message)]) ∧
    (isHttpException e = false → 500 ≤ (filterCatch p tid e).responseStatus →
      (filterCatch p tid e).logs
        = [LogEntry.error (underlyingMessage e) (underlyingStack e)]) ∧
    (isHttpException e = false → (filterCatch p tid e).responseStatus < 500 →
      (filterCatch p tid e).logs = []) := by
  cases e with
  | http h =>
    refine ⟨rfl, ?_, ?_, ?_⟩
    · intro h0 heq
      cases heq
      rfl
    · intro hfalse
      simp [isHttpException] at hfalse
    · intro hfalse
      simp [isHttpException] at hfalse
  | jsError m st c t =>
    refine ⟨rfl, ?_, ?_, ?_⟩
    · intro h0 heq
      cases heq
    · intro _ hge
      simp only [filterCatch] at hge ⊢
      rw [if_pos hge]
    · intro _ hlt
      simp only [filterCatch] at hlt ⊢
      rw [if_neg (by omega)]
  | nonError c t =>
    refine ⟨rfl, ?_, ?_, ?_⟩
    · intro h0 heq
      cases heq
    · intro _ hge
      simp only [filterCatch] at hge ⊢
      rw [if_pos hge]
    · intro _ hlt
      simp only [filterCatch] at hlt ⊢
      rw [if_neg (by omega)]

/-- C2 witness: an `HttpException` 404 produces exactly the one warning-level
entry with the rendered status and JSON-quoted message. -/
theorem C2_logging_policy_witness :
    (filterCatch false none (Exc.http
      ⟨404, RawResponse.str "Missing", "Missing"⟩)).logs =
    [LogEntry.warn ("HttpException "
      ++ toString (filterCatch false none (Exc.http
          ⟨404, RawResponse.str "Missing", "Missing"⟩)).responseStatus ++ ": "
      ++ jsonStringify (filterCatch false none (Exc.http
          ⟨404, RawResponse.str "Missing", "Missing"⟩)).responseBody.message)] :=
  (C2_logging_policy false none
    (Exc.http ⟨404, RawResponse.str "Missing", "Missing"⟩)).2.1
    ⟨404, RawResponse.str "Missing", "Missing"⟩ rfl

/-- C8 counterexample: two violation records sharing the field `name` yield
two `details.errors` entries (one per record), not one entry for the single
distinct field as the claim demands. -/
theorem C8_counterexample :
    formatValidationDetails
      (some (RawMessage.arr [MsgItem.record (some "name") (some [("a", "m1")]),
        MsgItem.record (some "name") (some [("b", "m2")])]))
      (some (RawMessage.arr [MsgItem.record (some "name") (some [("a", "m1")]),
        MsgItem.record (some "name") (some [("b", "m2")])]))
      = some ⟨[⟨"name", ["m1"]⟩, ⟨"name", ["m2"]⟩]⟩ ∧
    (([⟨"name", ["m1"]⟩, ⟨"name", ["m2"]⟩] : List ValidationErrorItem).map
      ValidationErrorItem.field).dedup = ["name"] :=
  ⟨rfl, by decide⟩

/-- C8 amended: the formatter unifies both payload shapes into
`details.errors` entries of shape `(field, messages)`: a non-empty all-strings
payload yields exactly one entry with the sentinel field `body` holding all
the strings, and a non-empty payload that is not all strings yields one entry
per record in input order (records sharing a field are not merged), each
carrying that record's constraint messages. -/
theorem C8_unified_shapes (ss : List String) (items : List MsgItem)
    (raw2 : Option RawMessage) (hs : ss ≠ []) (hi : items ≠ [])
    (hmix : items.all isStrItem = false) :
    formatValidationDetails (some (RawMessage.arr (ss.map MsgItem.str))) raw2
      = some ⟨[⟨"body", ss⟩]⟩ ∧
    formatValidationDetails (some (RawMessage.arr items)) raw2
      = some ⟨items.map mkValidationItem⟩ ∧
    (items.map mkValidationItem).length = items.length := by
  refine ⟨?_, ?_, by simp⟩
  · have hlen : (ss.map MsgItem.str).length > 0 := by
      simpa using List.length_pos.mpr hs
    have hall : (ss.map MsgItem.str).all isStrItem = true := by
      simp [List.all_map, Function.comp, isStrItem]
    have hmap : (ss.map MsgItem.str).map asString = ss := by
      have hid : asString ∘ MsgItem.str = id := funext fun s => rfl
      rw [List.map_map, hid, List.map_id]
    simp [formatValidationDetails, hlen, formatArray, hall, hmap, hs]
  · have hlen : items.length > 0 := List.length_pos.mpr hi
    simp [formatValidationDetails, hlen, formatArray, hmix]

/-- C8 witness: one all-strings payload and one mixed payload, evaluated. -/
theorem C8_unified_shapes_witness :
    (["m1", "m2"] : List String) ≠ [] ∧
    ([MsgItem.record (some "age") (some [("min", "too small")]),
      MsgItem.str "oops"] : List MsgItem) ≠ [] ∧
    ([MsgItem.record (some "age") (some [("min", "too small")]),
      MsgItem.str "oops"].all isStrItem = false) ∧
    (formatValidationDetails
      (some (RawMessage.arr (["m1", "m2"].map MsgItem.str))) none
      = some ⟨[⟨"body", ["m1", "m2"]⟩]⟩ ∧
    formatValidationDetails
      (some (RawMessage.arr [MsgItem.record (some "age") (some [("min", "too small")]),
        MsgItem.str "oops"])) none
      = some ⟨[MsgItem.record (some "age") (some [("min", "too small")]),
          MsgItem.str "oops"].map mkValidationItem⟩ ∧
    ([MsgItem.record (some "age") (some [("min", "too small")]),
      MsgItem.str "oops"].map mkValidationItem).length
      = [MsgItem.record (some "age") (some [("min", "too small")]),
          MsgItem.str "oops"].length) :=
  ⟨by decide, by decide, by decide,
   C8_unified_shapes ["m1", "m2"]
     [MsgItem.record (some "age") (some [("min", "too small")]), MsgItem.str "oops"]
     none (by decide) (by decide) (by decide)⟩

/-- C9: deleting a non-existent student is not a repository failure — the
repository delete returns `affected = 0` — and `StudentsService.remove`
raises `NotFoundException` (status 404, message `Student <id> not found`)
exactly when the affected count is zero, completing without failure
otherwise. -/
theorem C9_remove_zero_affected (store : List String) (id : String) :
    (id ∉ store →
      (repoDelete store id).1.affected = some 0 ∧
      (studentsServiceRemove store id).1
        = RemoveOutcome.raised (NotFoundExceptionOf s!"Student {id} not found") ∧
      (NotFoundExceptionOf s!"Student {id} not found").status = 404) ∧
    (id ∈ store → (studentsServiceRemove store id).1 = RemoveOutcome.ok) ∧
    ((studentsServiceRemove store id).1 ≠ RemoveOutcome.ok ↔
      (repoDelete store id).1.affected = some 0) := by
  have haff : (repoDelete store id).1.affected = some 0 ↔ id ∉ store := by
    simp only [repoDelete, Option.some_inj]
    rw [Int.natCast_eq_zero, List.countP_eq_zero]
    constructor
    · intro h hmem
      have hcontra := h id hmem
      simp at hcontra
    · intro h a ha hbeq
      exact h (beq_iff_eq.mp hbeq ▸ ha)
  refine ⟨?_, ?_, ?_⟩
  · intro hnot
    have h0 : (repoDelete store id).1.affected = some 0 := haff.mpr hnot
    exact ⟨h0, by simp [studentsServiceRemove, h0], rfl⟩
  · intro hmem
    have h0 : ¬(repoDelete store id).1.affected = some 0 :=
      fun hc => (haff.mp hc) hmem
    simp [studentsServiceRemove, h0]
  · by_cases hc : (repoDelete store id).1.affected = some 0 <;>
      simp [studentsServiceRemove, hc]

/-- C9 witness: removing id `b` from a store holding only `a`. -/
theorem C9_remove_zero_affected_witness :
    ("b" : String) ∉ (["a"] : List String) ∧
    ((repoDelete ["a"] "b").1.affected = some 0 ∧
    (studentsServiceRemove ["a"] "b").1
      = RemoveOutcome.raised (NotFoundExceptionOf s!"Student b not found") ∧
    (NotFoundExceptionOf s!"Student b not found").status = 404) :=
  ⟨by decide, (C9_remove_zero_affected ["a"] "b").1 (by decide)⟩
